import Mathlib

/-!
Verification of the collision module of the arcade shooter zenith
(`src/game/collision.rs`).

Modelling conventions: `f32` coordinates, radii, sizes and durations are
modelled as exact rationals (`ℚ`); entity handles (`Entity`) are natural
numbers; damage and health amounts are natural numbers.  Each per-frame
system is modelled as a pure function over explicit entity lists; the
engine-mediated side effects (deferred despawn commands, audio cues,
game-state transition requests) are recorded in explicit effect records.
Components of the repository that the systems use but whose defining
files are not in the sources (`Health` from `src/game/enemy.rs`,
`InvulnTimer` from `src/game/player.rs`, the game-state controller) are
modelled from the specification and marked as such.
-/

namespace Zenith

/-- A 2D vector, modelling the truncated `Vec3` translation of a `Transform`. -/
structure Vec2 where
  x : ℚ
  y : ℚ
deriving DecidableEq

/-- Squared Euclidean distance between two points, modelling
`Vec2::distance_squared`. -/
def distanceSquared (a b : Vec2) : ℚ :=
  (a.x - b.x) * (a.x - b.x) + (a.y - b.y) * (a.y - b.y)

/-- `inner_bound` from collision.rs: the inner bound for a sprite within a
region, `(dimension - sprite) / 2.0`. -/
def inner_bound (dimension sprite : ℚ) : ℚ :=
  (dimension - sprite) / 2

/-- `outer_bound` from collision.rs: the outer bound for a sprite within a
region, `(dimension + sprite) / 2.0`. -/
def outer_bound (dimension sprite : ℚ) : ℚ :=
  (dimension + sprite) / 2

/-- The `WindowSize` resource: viewport width and height in world units. -/
structure WindowSize where
  width : ℚ
  height : ℚ
deriving DecidableEq

/-- The `SpriteSize` component: width and height of the rendered extent. -/
structure SpriteSize where
  width : ℚ
  height : ℚ
deriving DecidableEq

/-- `SpriteSize::new`: calculate the sprite size from base size and scale. -/
def SpriteSize.new (width height scale : ℚ) : SpriteSize :=
  ⟨width * scale, height * scale⟩

/-- The overlap test shared by both damage passes: the squared center
distance is strictly less than the square of the sum of the radii
(`distance < radius_sum * radius_sum` in `collide_with_enemy_bullets`
and `collide_with_player_bullets`). -/
def collides (p₁ : Vec2) (r₁ : ℚ) (p₂ : Vec2) (r₂ : ℚ) : Bool :=
  distanceSquared p₁ p₂ < (r₁ + r₂) * (r₁ + r₂)

/-- `bound_player`: clamp a player entity's translation to the inner
bounds computed from the window size and its sprite size, min-then-max on
each axis independently. -/
def bound_player (window : WindowSize) (sprite : SpriteSize) (pos : Vec2) : Vec2 :=
  let width := inner_bound window.width sprite.width
  let height := inner_bound window.height sprite.height
  ⟨max (min pos.x width) (-width), max (min pos.y height) (-height)⟩

/-- An entity as seen by `despawn_outside`: an entity handle, whether it
carries the `DespawnOutside` marker, its effective rendered extent
(`SpriteSize` for the sprite-sheet query; `sprite.size * transform.scale`
for the plain-sprite query — both queries run the same test on the
effective extent), and its translation. -/
structure OutsideEntity where
  id : ℕ
  despawnOutside : Bool
  width : ℚ
  height : ℚ
  pos : Vec2
deriving DecidableEq

/-- The out-of-bounds test of `despawn_outside`: the translation exceeds
the outer bound plus a 12-unit margin in either direction on either axis. -/
def outside (window : WindowSize) (e : OutsideEntity) : Bool :=
  let width := outer_bound window.width e.width + 12
  let height := outer_bound window.height e.height + 12
  e.pos.x > width || e.pos.x < -width || e.pos.y > height || e.pos.y < -height

/-- `despawn_outside`: the list of entities despawned this frame — those
that carry the `DespawnOutside` marker (the system's queries are filtered
by `With<DespawnOutside>`) and whose translation is out of bounds. -/
def despawn_outside (window : WindowSize) (entities : List OutsideEntity) :
    List OutsideEntity :=
  entities.filter fun e => e.despawnOutside && outside window e

/-- A background star as seen by `wrap_stars`: sprite height, vertical
transform scale and translation. -/
structure Star where
  spriteHeight : ℚ
  scaleY : ℚ
  pos : Vec2
deriving DecidableEq

/-- `wrap_stars`: if a star's translation has dropped below the negative
vertical outer bound, teleport it to the positive bound; the horizontal
axis is untouched. -/
def wrap_stars (window : WindowSize) (s : Star) : Vec2 :=
  let height := outer_bound window.height (s.spriteHeight * s.scaleY)
  if s.pos.y < -height then ⟨s.pos.x, height⟩ else s.pos

/-- Modelled from the spec: the `Health` component (defined in
`src/game/enemy.rs`, which is not among the sources): a current and a
maximum integer value with `current ∈ [0, maximum]`. -/
structure Health where
  current : ℕ
  maximum : ℕ
deriving DecidableEq

/-- Modelled from the spec: `Health::damage` subtracts the damage amount
from `current`, clamped at 0 (never negative); `ℕ` subtraction is exactly
this clamped subtraction. -/
def Health.damage (h : Health) (d : ℕ) : Health :=
  { h with current := h.current - d }

/-- Modelled from the spec: the `InvulnTimer` component (defined in
`src/game/player.rs`, which is not among the sources): a countdown of
fixed duration, advanced every frame by the elapsed frame time. -/
structure InvulnTimer where
  elapsed : ℚ
  duration : ℚ
deriving DecidableEq

/-- Modelled from the spec: `tick` advances the countdown by the elapsed
frame time. -/
def InvulnTimer.tick (t : InvulnTimer) (delta : ℚ) : InvulnTimer :=
  { t with elapsed := t.elapsed + delta }

/-- Modelled from the spec: the countdown has elapsed, so the owner is
vulnerable again. -/
def InvulnTimer.finished (t : InvulnTimer) : Bool :=
  t.duration ≤ t.elapsed

/-- Modelled from the spec: `reset` restarts the countdown at its full
duration. -/
def InvulnTimer.reset (t : InvulnTimer) : InvulnTimer :=
  { t with elapsed := 0 }

/-- A bullet as queried by the damage passes: entity handle, `Damage`,
`Hitbox` radius and translation. -/
structure Bullet where
  id : ℕ
  damage : ℕ
  radius : ℚ
  pos : Vec2
deriving DecidableEq

/-- The player as queried by pass A: `Health`, `Hitbox` radius,
`InvulnTimer` and translation. -/
structure Player where
  health : Health
  radius : ℚ
  timer : InvulnTimer
  pos : Vec2
deriving DecidableEq

/-- The engine-mediated effects of pass A over one frame: the deferred
despawn commands issued, the number of hit-sound cues played, the number
of damage applications that landed, and the number of terminal
game-state transition requests (modelled from the spec: the game-state
controller's request operation is idempotent and consumed fire-and-forget,
so it is recorded as a request count). -/
structure PassAEffects where
  destroyed : List ℕ
  sounds : ℕ
  hits : ℕ
  stateSets : ℕ
deriving DecidableEq

/-- Queue a deferred despawn command for an entity (`Commands::despawn`):
despawning an entity already queued for despawn this frame is a tolerated
no-op. -/
def queueDespawn (ids : List ℕ) (i : ℕ) : List ℕ :=
  if i ∈ ids then ids else ids ++ [i]

/-- One iteration of the bullet loop of `collide_with_enemy_bullets`: on
overlap, despawn the bullet; then, if the invulnerability countdown has
finished, play the hit sound, deal the bullet's damage, request the
terminal transition when health reaches exactly 0, and reset the
invulnerability timer. -/
def passAStep (acc : Player × PassAEffects) (b : Bullet) : Player × PassAEffects :=
  let p := acc.1
  let eff := acc.2
  if collides p.pos p.radius b.pos b.radius then
    let eff := { eff with destroyed := queueDespawn eff.destroyed b.id }
    if p.timer.finished then
      let health := p.health.damage b.damage
      let eff :=
        { eff with
          sounds := eff.sounds + 1
          hits := eff.hits + 1
          stateSets := if health.current = 0 then eff.stateSets + 1 else eff.stateSets }
      ({ p with health := health, timer := p.timer.reset }, eff)
    else
      (p, eff)
  else
    acc

/-- `collide_with_enemy_bullets` (pass A): fails fast — the `expect` on
`Query::single_mut`, which yields an error unless the query matches
exactly one entity — unless exactly one player entity exists; otherwise
ticks the invulnerability timer by the frame's delta and folds the bullet
loop over all enemy-faction bullets. -/
def collide_with_enemy_bullets (players : List Player) (delta : ℚ)
    (bullets : List Bullet) : Except String (Player × PassAEffects) :=
  match players with
  | [p] =>
    let p := { p with timer := p.timer.tick delta }
    Except.ok (bullets.foldl passAStep (p, ⟨[], 0, 0, 0⟩))
  | _ => Except.error "expected a single player"

/-- An enemy as queried by pass B: `Health`, `Hitbox` radius and
translation. -/
structure Enemy where
  health : Health
  radius : ℚ
  pos : Vec2
deriving DecidableEq

/-- One iteration of the inner bullet loop of
`collide_with_player_bullets`: on overlap, despawn the bullet and deal
its damage to the current enemy unconditionally. -/
def passBBulletStep (acc : Enemy × List ℕ) (b : Bullet) : Enemy × List ℕ :=
  if collides acc.1.pos acc.1.radius b.pos b.radius then
    ({ acc.1 with health := acc.1.health.damage b.damage }, queueDespawn acc.2 b.id)
  else
    acc

/-- One iteration of the outer enemy loop of
`collide_with_player_bullets`: run every player-faction bullet against
this enemy, threading the frame's deferred despawn queue. -/
def passBEnemyStep (bullets : List Bullet) (acc : List Enemy × List ℕ) (e : Enemy) :
    List Enemy × List ℕ :=
  let r := bullets.foldl passBBulletStep (e, acc.2)
  (acc.1 ++ [r.1], r.2)

/-- `collide_with_player_bullets` (pass B): for every enemy, for every
player-faction bullet, test overlap; on overlap destroy the bullet and
apply its damage. Returns the updated enemies (in order) and the bullet
entities queued for despawn. -/
def collide_with_player_bullets (bullets : List Bullet) (enemies : List Enemy) :
    List Enemy × List ℕ :=
  enemies.foldl (passBEnemyStep bullets) ([], [])

/-- Statement-side abbreviation: the total damage of all bullets in the
list that overlap the given enemy's hitbox. -/
def overlapDamage (bullets : List Bullet) (e : Enemy) : ℕ :=
  ((bullets.filter fun b => collides e.pos e.radius b.pos b.radius).map Bullet.damage).sum

/-! ### Helper lemmas about the deferred despawn queue -/

lemma queueDespawn_mem (ids : List ℕ) (i j : ℕ) (h : i ∈ ids) :
    i ∈ queueDespawn ids j := by
  unfold queueDespawn
  split
  · exact h
  · exact List.mem_append_left _ h

lemma queueDespawn_self (ids : List ℕ) (i : ℕ) : i ∈ queueDespawn ids i := by
  unfold queueDespawn
  split
  · assumption
  · simp

lemma queueDespawn_idem (ids : List ℕ) (i : ℕ) :
    queueDespawn (queueDespawn ids i) i = queueDespawn ids i := by
  unfold queueDespawn
  split
  · simp [*]
  · simp

/-! ### Helper lemmas about pass A -/

lemma passAStep_pos (acc : Player × PassAEffects) (b : Bullet) :
    (passAStep acc b).1.pos = acc.1.pos := by
  unfold passAStep
  dsimp only
  split
  · split
    · rfl
    · rfl
  · rfl

lemma passAStep_radius (acc : Player × PassAEffects) (b : Bullet) :
    (passAStep acc b).1.radius = acc.1.radius := by
  unfold passAStep
  dsimp only
  split
  · split
    · rfl
    · rfl
  · rfl

lemma passAStep_duration (acc : Player × PassAEffects) (b : Bullet) :
    (passAStep acc b).1.timer.duration = acc.1.timer.duration := by
  unfold passAStep
  dsimp only
  split
  · split
    · rfl
    · rfl
  · rfl

lemma passAStep_destroyed_mono (acc : Player × PassAEffects) (b : Bullet) (i : ℕ)
    (h : i ∈ acc.2.destroyed) : i ∈ (passAStep acc b).2.destroyed := by
  unfold passAStep
  dsimp only
  split
  · split
    · exact queueDespawn_mem _ _ _ h
    · exact queueDespawn_mem _ _ _ h
  · exact h

lemma passAStep_destroys (acc : Player × PassAEffects) (b : Bullet)
    (h : collides acc.1.pos acc.1.radius b.pos b.radius = true) :
    b.id ∈ (passAStep acc b).2.destroyed := by
  unfold passAStep
  dsimp only
  rw [if_pos h]
  split
  · exact queueDespawn_self _ _
  · exact queueDespawn_self _ _

lemma passA_fold_pos (bullets : List Bullet) :
    ∀ acc : Player × PassAEffects,
      ((bullets.foldl passAStep acc).1.pos = acc.1.pos) := by
  induction bullets with
  | nil => intro acc; rfl
  | cons b bs ih =>
    intro acc
    rw [List.foldl_cons, ih, passAStep_pos]

lemma passA_fold_radius (bullets : List Bullet) :
    ∀ acc : Player × PassAEffects,
      ((bullets.foldl passAStep acc).1.radius = acc.1.radius) := by
  induction bullets with
  | nil => intro acc; rfl
  | cons b bs ih =>
    intro acc
    rw [List.foldl_cons, ih, passAStep_radius]

lemma passA_fold_destroyed_mono (bullets : List Bullet) :
    ∀ (acc : Player × PassAEffects) (i : ℕ), i ∈ acc.2.destroyed →
      i ∈ (bullets.foldl passAStep acc).2.destroyed := by
  induction bullets with
  | nil => intro acc i h; exact h
  | cons b bs ih =>
    intro acc i h
    rw [List.foldl_cons]
    exact ih _ _ (passAStep_destroyed_mono _ _ _ h)

lemma passA_fold_destroys (bullets : List Bullet) :
    ∀ (acc : Player × PassAEffects) (b : Bullet), b ∈ bullets →
      collides acc.1.pos acc.1.radius b.pos b.radius = true →
      b.id ∈ (bullets.foldl passAStep acc).2.destroyed := by
  induction bullets with
  | nil => intro acc b h; exact absurd h (List.not_mem_nil b)
  | cons hd tl ih =>
    intro acc b hmem hcol
    rw [List.foldl_cons]
    rcases List.mem_cons.mp hmem with heq | htl
    · subst heq
      exact passA_fold_destroyed_mono _ _ _ (passAStep_destroys _ _ hcol)
    · exact ih _ _ htl (by rw [passAStep_pos, passAStep_radius]; exact hcol)

lemma passAStep_invuln (acc : Player × PassAEffects) (b : Bullet)
    (h : acc.1.timer.finished = false) :
    (passAStep acc b).1 = acc.1 ∧
    (passAStep acc b).2.sounds = acc.2.sounds ∧
    (passAStep acc b).2.hits = acc.2.hits ∧
    (passAStep acc b).2.stateSets = acc.2.stateSets := by
  unfold passAStep
  dsimp only
  split
  · rw [if_neg (by rw [h]; exact Bool.false_ne_true)]
    exact ⟨rfl, rfl, rfl, rfl⟩
  · exact ⟨rfl, rfl, rfl, rfl⟩

lemma passA_fold_invuln (bullets : List Bullet) :
    ∀ acc : Player × PassAEffects, acc.1.timer.finished = false →
      (bullets.foldl passAStep acc).1 = acc.1 ∧
      (bullets.foldl passAStep acc).2.sounds = acc.2.sounds ∧
      (bullets.foldl passAStep acc).2.hits = acc.2.hits ∧
      (bullets.foldl passAStep acc).2.stateSets = acc.2.stateSets := by
  induction bullets with
  | nil => intro acc _; exact ⟨rfl, rfl, rfl, rfl⟩
  | cons b bs ih =>
    intro acc h
    rw [List.foldl_cons]
    obtain ⟨hp, hs, hh, hq⟩ := passAStep_invuln acc b h
    obtain ⟨hp', hs', hh', hq'⟩ := ih (passAStep acc b) (by rw [hp]; exact h)
    exact ⟨hp'.trans hp, hs'.trans hs, hh'.trans hh, hq'.trans hq⟩

lemma reset_not_finished (t : InvulnTimer) (h : 0 < t.duration) :
    t.reset.finished = false := by
  unfold InvulnTimer.reset InvulnTimer.finished
  simp only [decide_eq_false_iff_not]
  exact not_le.mpr h

lemma passAStep_hit_invariant (acc : Player × PassAEffects) (b : Bullet)
    (hdur : 0 < acc.1.timer.duration)
    (h1 : acc.2.hits ≤ 1) (h0 : acc.1.timer.finished = true → acc.2.hits = 0)
    (hs : acc.2.sounds = acc.2.hits) :
    (passAStep acc b).2.hits ≤ 1 ∧
    ((passAStep acc b).1.timer.finished = true → (passAStep acc b).2.hits = 0) ∧
    (passAStep acc b).2.sounds = (passAStep acc b).2.hits := by
  unfold passAStep
  dsimp only
  split
  · split
    case isTrue hfin =>
      dsimp only
      refine ⟨by rw [h0 hfin], ?_, by rw [hs]⟩
      intro ht
      rw [reset_not_finished _ hdur] at ht
      exact absurd ht Bool.false_ne_true
    case isFalse hfin =>
      exact ⟨h1, fun ht => h0 ht, hs⟩
  · exact ⟨h1, fun ht => h0 ht, hs⟩

lemma passA_fold_single_hit (bullets : List Bullet) :
    ∀ acc : Player × PassAEffects, 0 < acc.1.timer.duration →
      acc.2.hits ≤ 1 → (acc.1.timer.finished = true → acc.2.hits = 0) →
      acc.2.sounds = acc.2.hits →
      (bullets.foldl passAStep acc).2.hits ≤ 1 ∧
      (bullets.foldl passAStep acc).2.sounds = (bullets.foldl passAStep acc).2.hits := by
  induction bullets with
  | nil => intro acc _ h1 _ hs; exact ⟨h1, hs⟩
  | cons b bs ih =>
    intro acc hdur h1 h0 hs
    rw [List.foldl_cons]
    obtain ⟨h1', h0', hs'⟩ := passAStep_hit_invariant acc b hdur h1 h0 hs
    exact ih _ (by rw [passAStep_duration]; exact hdur) h1' h0' hs'

/-! ### Helper lemmas about pass B -/

lemma passBBulletStep_pos (acc : Enemy × List ℕ) (b : Bullet) :
    (passBBulletStep acc b).1.pos = acc.1.pos := by
  unfold passBBulletStep
  split
  · rfl
  · rfl

lemma passBBulletStep_radius (acc : Enemy × List ℕ) (b : Bullet) :
    (passBBulletStep acc b).1.radius = acc.1.radius := by
  unfold passBBulletStep
  split
  · rfl
  · rfl

lemma overlapDamage_cons (b : Bullet) (bs : List Bullet) (e : Enemy) :
    overlapDamage (b :: bs) e =
      (if collides e.pos e.radius b.pos b.radius = true then b.damage else 0) +
        overlapDamage bs e := by
  unfold overlapDamage
  rw [List.filter_cons]
  split
  · rw [List.map_cons, List.sum_cons]
  · rw [Nat.zero_add]

lemma passB_inner_enemy (bullets : List Bullet) :
    ∀ (e : Enemy) (ids : List ℕ),
      (bullets.foldl passBBulletStep (e, ids)).1 =
        { e with health := ⟨e.health.current - overlapDamage bullets e, e.health.maximum⟩ } := by
  induction bullets with
  | nil => intro e ids; rfl
  | cons b bs ih =>
    intro e ids
    rw [List.foldl_cons, overlapDamage_cons]
    by_cases hcol : collides e.pos e.radius b.pos b.radius = true
    · have hstep : passBBulletStep (e, ids) b =
          ({ e with health := e.health.damage b.damage }, queueDespawn ids b.id) := by
        unfold passBBulletStep
        rw [if_pos hcol]
      rw [hstep, ih, if_pos hcol]
      have hsame : overlapDamage bs { e with health := e.health.damage b.damage } =
          overlapDamage bs e := rfl
      rw [hsame]
      show ({ health := ⟨e.health.current - b.damage - overlapDamage bs e, e.health.maximum⟩,
              radius := e.radius, pos := e.pos } : Enemy) = _
      rw [Nat.sub_sub]
    · have hstep : passBBulletStep (e, ids) b = (e, ids) := by
        unfold passBBulletStep
        rw [if_neg hcol]
      rw [hstep, ih, if_neg hcol, Nat.zero_add]

lemma passB_inner_ids_mono (bullets : List Bullet) :
    ∀ (e : Enemy) (ids : List ℕ) (i : ℕ), i ∈ ids →
      i ∈ (bullets.foldl passBBulletStep (e, ids)).2 := by
  induction bullets with
  | nil => intro e ids i h; exact h
  | cons b bs ih =>
    intro e ids i h
    rw [List.foldl_cons]
    have hstep : i ∈ (passBBulletStep (e, ids) b).2 := by
      unfold passBBulletStep
      split
      · exact queueDespawn_mem _ _ _ h
      · exact h
    have := ih (passBBulletStep (e, ids) b).1 (passBBulletStep (e, ids) b).2 i hstep
    exact this

lemma passB_inner_destroys (bullets : List Bullet) :
    ∀ (e : Enemy) (ids : List ℕ) (b : Bullet), b ∈ bullets →
      collides e.pos e.radius b.pos b.radius = true →
      b.id ∈ (bullets.foldl passBBulletStep (e, ids)).2 := by
  induction bullets with
  | nil => intro e ids b h; exact absurd h (List.not_mem_nil b)
  | cons hd tl ih =>
    intro e ids b hmem hcol
    rw [List.foldl_cons]
    rcases List.mem_cons.mp hmem with heq | htl
    · subst heq
      have hstep : b.id ∈ (passBBulletStep (e, ids) b).2 := by
        unfold passBBulletStep
        rw [if_pos hcol]
        exact queueDespawn_self _ _
      have := passB_inner_ids_mono tl (passBBulletStep (e, ids) b).1
        (passBBulletStep (e, ids) b).2 b.id hstep
      exact this
    · have hpos : (passBBulletStep (e, ids) hd).1.pos = e.pos := passBBulletStep_pos _ _
      have hrad : (passBBulletStep (e, ids) hd).1.radius = e.radius := passBBulletStep_radius _ _
      have := ih (passBBulletStep (e, ids) hd).1 (passBBulletStep (e, ids) hd).2 b htl
        (by rw [hpos, hrad]; exact hcol)
      exact this

lemma passB_outer_enemies (bullets : List Bullet) (enemies : List Enemy) :
    ∀ acc : List Enemy × List ℕ,
      (enemies.foldl (passBEnemyStep bullets) acc).1 =
        acc.1 ++ enemies.map fun e =>
          { e with health := ⟨e.health.current - overlapDamage bullets e, e.health.maximum⟩ } := by
  induction enemies with
  | nil => intro acc; simp
  | cons e es ih =>
    intro acc
    rw [List.foldl_cons, List.map_cons, ih]
    unfold passBEnemyStep
    dsimp only
    rw [passB_inner_enemy]
    simp

lemma passB_outer_ids_mono (bullets : List Bullet) (enemies : List Enemy) :
    ∀ (acc : List Enemy × List ℕ) (i : ℕ), i ∈ acc.2 →
      i ∈ (enemies.foldl (passBEnemyStep bullets) acc).2 := by
  induction enemies with
  | nil => intro acc i h; exact h
  | cons e es ih =>
    intro acc i h
    rw [List.foldl_cons]
    refine ih _ i ?_
    unfold passBEnemyStep
    dsimp only
    exact passB_inner_ids_mono bullets e acc.2 i h

lemma passB_outer_destroys (bullets : List Bullet) (enemies : List Enemy) :
    ∀ (acc : List Enemy × List ℕ) (b : Bullet) (e : Enemy), e ∈ enemies → b ∈ bullets →
      collides e.pos e.radius b.pos b.radius = true →
      b.id ∈ (enemies.foldl (passBEnemyStep bullets) acc).2 := by
  induction enemies with
  | nil => intro acc b e h; exact absurd h (List.not_mem_nil e)
  | cons hd tl ih =>
    intro acc b e hmem hb hcol
    rw [List.foldl_cons]
    rcases List.mem_cons.mp hmem with heq | htl
    · subst heq
      refine passB_outer_ids_mono bullets tl _ b.id ?_
      unfold passBEnemyStep
      dsimp only
      exact passB_inner_destroys bullets e acc.2 b hb hcol
    · exact ih _ b e htl hb hcol

/-! ### Claim theorems -/

/-- C10: for all dimension `d ≥ 0` and extent `e ≥ 0`, the geometry
utilities satisfy `inner_bound d e + outer_bound d e = d` and
`outer_bound d e - inner_bound d e = e`. -/
theorem bound_sum_and_difference (d e : ℚ) (hd : 0 ≤ d) (he : 0 ≤ e) :
    inner_bound d e + outer_bound d e = d ∧ outer_bound d e - inner_bound d e = e := by
  unfold inner_bound outer_bound
  constructor
  · ring
  · ring

/-- Witness for C10 at dimension 800 and extent 64. -/
theorem bound_sum_and_difference_witness :
    (0 : ℚ) ≤ 800 ∧ (0 : ℚ) ≤ 64 ∧
      (inner_bound 800 64 + outer_bound 800 64 = 800 ∧
        outer_bound 800 64 - inner_bound 800 64 = 64) :=
  ⟨by norm_num, by norm_num, bound_sum_and_difference 800 64 (by norm_num) (by norm_num)⟩

/-- C2: both damage passes register overlap through the shared test
`collides`, which holds iff the squared Euclidean distance between the
centers is strictly less than the square of the sum of the radii; two
hitboxes of radius 5 overlap at center distance 9.99 and do not overlap
at distance 10 or more. -/
theorem overlap_strict_squared_distance :
    (∀ (p₁ : Vec2) (r₁ : ℚ) (p₂ : Vec2) (r₂ : ℚ),
      collides p₁ r₁ p₂ r₂ = true ↔ distanceSquared p₁ p₂ < (r₁ + r₂) * (r₁ + r₂)) ∧
    collides ⟨0, 0⟩ 5 ⟨999/100, 0⟩ 5 = true ∧
    ∀ d : ℚ, 10 ≤ d → collides ⟨0, 0⟩ 5 ⟨d, 0⟩ 5 = false := by
  refine ⟨?_, ?_, ?_⟩
  · intro p₁ r₁ p₂ r₂
    simp [collides]
  · norm_num [collides, distanceSquared]
  · intro d hd
    simp only [collides, distanceSquared, decide_eq_false_iff_not, not_lt]
    nlinarith

/-- Witness for C2 at distance exactly 10: no overlap. -/
theorem overlap_strict_squared_distance_witness :
    (10 : ℚ) ≤ 10 ∧ collides ⟨0, 0⟩ 5 ⟨10, 0⟩ 5 = false :=
  ⟨by norm_num, overlap_strict_squared_distance.2.2 10 (by norm_num)⟩

/-- C7: `bound_player` clamps the position per axis to
`[-inner_bound, inner_bound]` via min-then-max, snapping out-of-range
coordinates to the nearest edge: with viewport 800×600 and extent 64×64,
x=1000 becomes 368 and x=−1000 becomes −368; a position already inside
the bounds is unchanged. -/
theorem bound_player_clamp :
    (∀ (window : WindowSize) (sprite : SpriteSize) (pos : Vec2),
      0 ≤ inner_bound window.width sprite.width →
      0 ≤ inner_bound window.height sprite.height →
        (-(inner_bound window.width sprite.width) ≤ (bound_player window sprite pos).x ∧
          (bound_player window sprite pos).x ≤ inner_bound window.width sprite.width ∧
          -(inner_bound window.height sprite.height) ≤ (bound_player window sprite pos).y ∧
          (bound_player window sprite pos).y ≤ inner_bound window.height sprite.height)) ∧
    (∀ (window : WindowSize) (sprite : SpriteSize) (pos : Vec2),
      |pos.x| ≤ inner_bound window.width sprite.width →
      |pos.y| ≤ inner_bound window.height sprite.height →
        bound_player window sprite pos = pos) ∧
    bound_player ⟨800, 600⟩ ⟨64, 64⟩ ⟨1000, 0⟩ = ⟨368, 0⟩ ∧
    bound_player ⟨800, 600⟩ ⟨64, 64⟩ ⟨-1000, 0⟩ = ⟨-368, 0⟩ := by
  refine ⟨?_, ?_, ?_, ?_⟩
  · intro window sprite pos hw hh
    unfold bound_player
    dsimp only
    refine ⟨le_max_right _ _, max_le (min_le_right _ _) (neg_le_self hw),
      le_max_right _ _, max_le (min_le_right _ _) (neg_le_self hh)⟩
  · intro window sprite pos hx hy
    obtain ⟨hx₁, hx₂⟩ := abs_le.mp hx
    obtain ⟨hy₁, hy₂⟩ := abs_le.mp hy
    unfold bound_player
    dsimp only
    cases pos with
    | mk x y =>
      simp only [Vec2.mk.injEq]
      exact ⟨by rw [min_eq_left hx₂, max_eq_left hx₁],
        by rw [min_eq_left hy₂, max_eq_left hy₁]⟩
  · norm_num [bound_player, inner_bound, Vec2.mk.injEq]
  · norm_num [bound_player, inner_bound, Vec2.mk.injEq]

/-- Witness for C7: an in-bounds position is unchanged. -/
theorem bound_player_clamp_witness :
    |(100 : ℚ)| ≤ inner_bound 800 64 ∧ |(50 : ℚ)| ≤ inner_bound 600 64 ∧
      bound_player ⟨800, 600⟩ ⟨64, 64⟩ ⟨100, 50⟩ = ⟨100, 50⟩ :=
  ⟨by norm_num [inner_bound], by norm_num [inner_bound],
    bound_player_clamp.2.1 ⟨800, 600⟩ ⟨64, 64⟩ ⟨100, 50⟩
      (by norm_num [inner_bound]) (by norm_num [inner_bound])⟩

/-- C9: `wrap_stars` sets a star's y to the positive outer bound iff its y
is strictly below the negative outer bound (with viewport height 600 and
sprite height 64, y=−301 is untouched and y=−333 becomes 332), always
leaves x unchanged, and never wraps at the top edge. -/
theorem wrap_stars_bottom_edge :
    (∀ (window : WindowSize) (s : Star),
      s.pos.y < -(outer_bound window.height (s.spriteHeight * s.scaleY)) →
        wrap_stars window s =
          ⟨s.pos.x, outer_bound window.height (s.spriteHeight * s.scaleY)⟩) ∧
    (∀ (window : WindowSize) (s : Star),
      ¬ s.pos.y < -(outer_bound window.height (s.spriteHeight * s.scaleY)) →
        wrap_stars window s = s.pos) ∧
    (∀ (window : WindowSize) (s : Star), (wrap_stars window s).x = s.pos.x) ∧
    wrap_stars ⟨800, 600⟩ ⟨64, 1, ⟨7, -301⟩⟩ = ⟨7, -301⟩ ∧
    wrap_stars ⟨800, 600⟩ ⟨64, 1, ⟨7, -333⟩⟩ = ⟨7, 332⟩ := by
  refine ⟨?_, ?_, ?_, ?_, ?_⟩
  · intro window s h
    unfold wrap_stars
    rw [if_pos h]
  · intro window s h
    unfold wrap_stars
    rw [if_neg h]
  · intro window s
    unfold wrap_stars
    dsimp only
    split
    · rfl
    · rfl
  · norm_num [wrap_stars, outer_bound]
  · norm_num [wrap_stars, outer_bound, Vec2.mk.injEq]

/-- Witness for C9: a star below the bottom edge is teleported to the top. -/
theorem wrap_stars_bottom_edge_witness :
    (-333 : ℚ) < -(outer_bound 600 (64 * 1)) ∧
      wrap_stars ⟨800, 600⟩ ⟨64, 1, ⟨7, -333⟩⟩ = ⟨7, outer_bound 600 (64 * 1)⟩ :=
  ⟨by norm_num [outer_bound],
    wrap_stars_bottom_edge.1 ⟨800, 600⟩ ⟨64, 1, ⟨7, -333⟩⟩ (by norm_num [outer_bound])⟩

/-- C4: pass A fails fast iff the number of player entities is not exactly
one; with exactly one player it runs to completion without this failure. -/
theorem passA_single_player_required (players : List Player) (delta : ℚ)
    (bullets : List Bullet) :
    (∃ res, collide_with_enemy_bullets players delta bullets = Except.ok res) ↔
      players.length = 1 := by
  rcases players with _ | ⟨p, _ | ⟨q, t⟩⟩
  · simp [collide_with_enemy_bullets]
  · simp [collide_with_enemy_bullets]
  · simp only [collide_with_enemy_bullets, List.length_cons]
    constructor
    · rintro ⟨res, hres⟩
      exact absurd hres (by simp)
    · intro h
      omega

/-- Witness for C4: with a single player the pass succeeds. -/
theorem passA_single_player_required_witness :
    ∃ res, collide_with_enemy_bullets [⟨⟨10, 10⟩, 5, ⟨0, 1⟩, ⟨0, 0⟩⟩] 1 [] =
      Except.ok res :=
  (passA_single_player_required [⟨⟨10, 10⟩, 5, ⟨0, 1⟩, ⟨0, 0⟩⟩] 1 []).mpr rfl

/-- C1: when the player starts the frame vulnerable (the ticked timer has
finished) and the invulnerability duration is positive, at most one damage
application lands in pass A over the whole frame, at most one hit sound is
played, and every overlapping enemy bullet is destroyed regardless of
iteration order. -/
theorem passA_at_most_one_hit (p : Player) (delta : ℚ) (bullets : List Bullet)
    (res : Player × PassAEffects)
    (hdur : 0 < p.timer.duration)
    (hvuln : (p.timer.tick delta).finished = true)
    (hrun : collide_with_enemy_bullets [p] delta bullets = Except.ok res) :
    res.2.hits ≤ 1 ∧ res.2.sounds ≤ 1 ∧
      ∀ b ∈ bullets, collides p.pos p.radius b.pos b.radius = true →
        b.id ∈ res.2.destroyed := by
  simp only [collide_with_enemy_bullets, Except.ok.injEq] at hrun
  subst hrun
  obtain ⟨h1, hs⟩ := passA_fold_single_hit bullets
    ({ p with timer := p.timer.tick delta }, ⟨[], 0, 0, 0⟩)
    hdur (Nat.zero_le 1) (fun _ => rfl) rfl
  refine ⟨h1, by rw [hs]; exact h1, ?_⟩
  intro b hb hcol
  exact passA_fold_destroys bullets _ b hb hcol

/-- Witness for C1: a vulnerable player hit by two overlapping bullets in
one frame takes exactly one hit and both bullets are destroyed. -/
theorem passA_at_most_one_hit_witness :
    ({ destroyed := [1, 2], sounds := 1, hits := 1, stateSets := 0 } : PassAEffects).hits ≤ 1 ∧
      (1 : ℕ) ∈
        ({ destroyed := [1, 2], sounds := 1, hits := 1, stateSets := 0 } : PassAEffects).destroyed := by
  have h := passA_at_most_one_hit ⟨⟨10, 10⟩, 5, ⟨1/2, 1⟩, ⟨0, 0⟩⟩ (1/2)
    [⟨1, 4, 5, ⟨1, 0⟩⟩, ⟨2, 4, 5, ⟨0, 1⟩⟩]
    (⟨⟨6, 10⟩, 5, ⟨0, 1⟩, ⟨0, 0⟩⟩, ⟨[1, 2], 1, 1, 0⟩)
    (by norm_num)
    (by norm_num [InvulnTimer.tick, InvulnTimer.finished])
    (by norm_num [collide_with_enemy_bullets, passAStep, collides, distanceSquared,
      InvulnTimer.tick, InvulnTimer.finished, InvulnTimer.reset, Health.damage,
      queueDespawn, List.foldl])
  exact ⟨h.1, h.2.2 ⟨1, 4, 5, ⟨1, 0⟩⟩ (by simp) (by norm_num [collides, distanceSquared])⟩

/-- C6: in pass A every overlapping enemy bullet is destroyed whether or
not the player is invulnerable; and if the player is invulnerable for the
frame, nothing else changes — no health change, no sound cue, no damage
application, no terminal transition, and no timer reset beyond the
frame's tick. -/
theorem passA_bullet_always_consumed (p : Player) (delta : ℚ) (bullets : List Bullet)
    (res : Player × PassAEffects)
    (hrun : collide_with_enemy_bullets [p] delta bullets = Except.ok res) :
    (∀ b ∈ bullets, collides p.pos p.radius b.pos b.radius = true →
      b.id ∈ res.2.destroyed) ∧
    ((p.timer.tick delta).finished = false →
      res.1.health = p.health ∧ res.1.timer = p.timer.tick delta ∧
      res.2.sounds = 0 ∧ res.2.hits = 0 ∧ res.2.stateSets = 0) := by
  simp only [collide_with_enemy_bullets, Except.ok.injEq] at hrun
  subst hrun
  constructor
  · intro b hb hcol
    exact passA_fold_destroys bullets _ b hb hcol
  · intro hinv
    obtain ⟨hp, hs, hh, hq⟩ := passA_fold_invuln bullets
      ({ p with timer := p.timer.tick delta }, ⟨[], 0, 0, 0⟩) hinv
    exact ⟨by rw [hp], by rw [hp], hs, hh, hq⟩

/-- Witness for C6: an invulnerable player still consumes the bullet but
takes no damage, hears no sound, and keeps the ticked timer. -/
theorem passA_bullet_always_consumed_witness :
    (1 : ℕ) ∈ ({ destroyed := [1], sounds := 0, hits := 0, stateSets := 0 } : PassAEffects).destroyed ∧
      (⟨⟨10, 10⟩, 5, ⟨1/2, 1⟩, ⟨0, 0⟩⟩ : Player).health = (⟨10, 10⟩ : Health) := by
  have h := passA_bullet_always_consumed ⟨⟨10, 10⟩, 5, ⟨0, 1⟩, ⟨0, 0⟩⟩ (1/2)
    [⟨1, 4, 5, ⟨1, 0⟩⟩]
    (⟨⟨10, 10⟩, 5, ⟨1/2, 1⟩, ⟨0, 0⟩⟩, ⟨[1], 0, 0, 0⟩)
    (by norm_num [collide_with_enemy_bullets, passAStep, collides, distanceSquared,
      InvulnTimer.tick, InvulnTimer.finished, InvulnTimer.reset, Health.damage,
      queueDespawn, List.foldl])
  refine ⟨h.1 ⟨1, 4, 5, ⟨1, 0⟩⟩ (by simp) (by norm_num [collides, distanceSquared]), ?_⟩
  exact (h.2 (by norm_num [InvulnTimer.tick, InvulnTimer.finished])).1

/-- C3: when a damaging hit in pass A brings player health to exactly 0,
the terminal game-state transition is requested, and even when two lethal
bullets overlap in the same frame the pass completes with the transition
requested exactly once (the timer reset after the first hit gates the
second bullet), both bullets being destroyed. -/
theorem passA_lethal_transition_once (p : Player) (delta : ℚ) (b₁ b₂ : Bullet)
    (res : Player × PassAEffects)
    (hdur : 0 < p.timer.duration)
    (hvuln : (p.timer.tick delta).finished = true)
    (hc₁ : collides p.pos p.radius b₁.pos b₁.radius = true)
    (hc₂ : collides p.pos p.radius b₂.pos b₂.radius = true)
    (hpos : 0 < p.health.current)
    (hlethal : p.health.current ≤ b₁.damage)
    (hrun : collide_with_enemy_bullets [p] delta [b₁, b₂] = Except.ok res) :
    res.1.health.current = 0 ∧ res.2.stateSets = 1 ∧
      b₁.id ∈ res.2.destroyed ∧ b₂.id ∈ res.2.destroyed := by
  simp only [collide_with_enemy_bullets, Except.ok.injEq] at hrun
  subst hrun
  have hzero : (p.health.damage b₁.damage).current = 0 := Nat.sub_eq_zero_of_le hlethal
  have h1 : passAStep ({ p with timer := p.timer.tick delta }, ⟨[], 0, 0, 0⟩) b₁ =
      ({ p with health := p.health.damage b₁.damage, timer := (p.timer.tick delta).reset },
        ⟨queueDespawn [] b₁.id, 1, 1, 1⟩) := by
    unfold passAStep
    dsimp only
    rw [if_pos hc₁, if_pos hvuln, if_pos hzero]
  have hreset : ((p.timer.tick delta).reset).finished = false :=
    reset_not_finished _ hdur
  have h2 : passAStep
      ({ p with health := p.health.damage b₁.damage, timer := (p.timer.tick delta).reset },
        ⟨queueDespawn [] b₁.id, 1, 1, 1⟩) b₂ =
      ({ p with health := p.health.damage b₁.damage, timer := (p.timer.tick delta).reset },
        ⟨queueDespawn (queueDespawn [] b₁.id) b₂.id, 1, 1, 1⟩) := by
    unfold passAStep
    dsimp only
    rw [if_pos hc₂, if_neg (by rw [hreset]; exact Bool.false_ne_true)]
  rw [List.foldl_cons, List.foldl_cons, List.foldl_nil, h1, h2]
  exact ⟨hzero, rfl,
    queueDespawn_mem _ _ _ (queueDespawn_self _ _), queueDespawn_self _ _⟩

/-- Witness for C3: health 3, two overlapping bullets each dealing 5
damage while vulnerable — health clamps to 0 and the terminal transition
is requested exactly once. -/
theorem passA_lethal_transition_once_witness :
    (⟨0, 10⟩ : Health).current = 0 ∧
      ({ destroyed := [1, 2], sounds := 1, hits := 1, stateSets := 1 } : PassAEffects).stateSets = 1 := by
  have h := passA_lethal_transition_once ⟨⟨3, 10⟩, 5, ⟨1/2, 1⟩, ⟨0, 0⟩⟩ (1/2)
    ⟨1, 5, 5, ⟨1, 0⟩⟩ ⟨2, 5, 5, ⟨0, 1⟩⟩
    (⟨⟨0, 10⟩, 5, ⟨0, 1⟩, ⟨0, 0⟩⟩, ⟨[1, 2], 1, 1, 1⟩)
    (by norm_num)
    (by norm_num [InvulnTimer.tick, InvulnTimer.finished])
    (by norm_num [collides, distanceSquared])
    (by norm_num [collides, distanceSquared])
    (by norm_num)
    (by norm_num)
    (by norm_num [collide_with_enemy_bullets, passAStep, collides, distanceSquared,
      InvulnTimer.tick, InvulnTimer.finished, InvulnTimer.reset, Health.damage,
      queueDespawn, List.foldl])
  exact ⟨h.1, h.2.1⟩

/-- C5: in pass B every overlapping (enemy, bullet) pair applies the
bullet's damage independently — each enemy's health is reduced (clamped
at 0) by the total damage of all bullets overlapping it, so n bullets of
damage d cost one enemy n·d and one bullet damages every enemy it
overlaps — every overlapping bullet is queued for destruction, and
re-queuing an already queued destruction is a tolerated no-op. -/
theorem passB_cumulative_damage (bullets : List Bullet) (enemies : List Enemy) :
    (collide_with_player_bullets bullets enemies).1 =
      (enemies.map fun e =>
        { e with health := ⟨e.health.current - overlapDamage bullets e, e.health.maximum⟩ }) ∧
    (∀ b ∈ bullets, ∀ e ∈ enemies, collides e.pos e.radius b.pos b.radius = true →
      b.id ∈ (collide_with_player_bullets bullets enemies).2) ∧
    ∀ (ids : List ℕ) (i : ℕ), queueDespawn (queueDespawn ids i) i = queueDespawn ids i := by
  refine ⟨?_, ?_, queueDespawn_idem⟩
  · have h := passB_outer_enemies bullets enemies ([], [])
    simpa [collide_with_player_bullets] using h
  · intro b hb e he hcol
    exact passB_outer_destroys bullets enemies ([], []) b e he hb hcol

/-- Witness for C5: one enemy with health 9, two bullets each dealing 2 —
health drops by 4 and both bullets are destroyed. -/
theorem passB_cumulative_damage_witness :
    (collide_with_player_bullets [⟨1, 2, 5, ⟨1, 0⟩⟩, ⟨2, 2, 5, ⟨0, 1⟩⟩]
        [⟨⟨9, 9⟩, 5, ⟨0, 0⟩⟩]).1 =
      [⟨⟨5, 9⟩, 5, ⟨0, 0⟩⟩] ∧
    (1 : ℕ) ∈ (collide_with_player_bullets [⟨1, 2, 5, ⟨1, 0⟩⟩, ⟨2, 2, 5, ⟨0, 1⟩⟩]
        [⟨⟨9, 9⟩, 5, ⟨0, 0⟩⟩]).2 ∧
    (2 : ℕ) ∈ (collide_with_player_bullets [⟨1, 2, 5, ⟨1, 0⟩⟩, ⟨2, 2, 5, ⟨0, 1⟩⟩]
        [⟨⟨9, 9⟩, 5, ⟨0, 0⟩⟩]).2 := by
  have h := passB_cumulative_damage [⟨1, 2, 5, ⟨1, 0⟩⟩, ⟨2, 2, 5, ⟨0, 1⟩⟩]
    [⟨⟨9, 9⟩, 5, ⟨0, 0⟩⟩]
  refine ⟨?_, ?_, ?_⟩
  · rw [h.1]
    norm_num [overlapDamage, collides, distanceSquared, List.filter]
  · exact h.2.1 ⟨1, 2, 5, ⟨1, 0⟩⟩ (by simp) ⟨⟨9, 9⟩, 5, ⟨0, 0⟩⟩ (by simp)
      (by norm_num [collides, distanceSquared])
  · exact h.2.1 ⟨2, 2, 5, ⟨0, 1⟩⟩ (by simp) ⟨⟨9, 9⟩, 5, ⟨0, 0⟩⟩ (by simp)
      (by norm_num [collides, distanceSquared])

/-- C8 (counterexample): with viewport 800×600 and extent 64×64, a marked
entity at x=476 IS destroyed by `despawn_outside` — the outer bound plus
margin is (800+64)/2 + 12 = 444, not 476 — refuting the claim that an
entity at x=476 survives. -/
theorem despawn_outside_at_476_destroyed :
    despawn_outside ⟨800, 600⟩ [⟨0, true, 64, 64, ⟨476, 0⟩⟩] =
      [⟨0, true, 64, 64, ⟨476, 0⟩⟩] := by
  norm_num [despawn_outside, outside, outer_bound, List.filter]

/-- C8 (amended): `despawn_outside` destroys a marked entity iff its
position strictly exceeds outer bound + 12 margin in either direction on
either axis; with viewport 800×600 and extent 64×64 the x-axis boundary
is 444 (the y-axis boundary 344): at the boundary the entity survives,
strictly beyond (444.1, either sign, either axis) it is destroyed; and
entities without the marker are never reaped. -/
theorem despawn_outside_margin :
    (∀ (window : WindowSize) (es : List OutsideEntity) (e : OutsideEntity),
      e ∈ despawn_outside window es ↔
        e ∈ es ∧ e.despawnOutside = true ∧ outside window e = true) ∧
    (∀ (window : WindowSize) (es : List OutsideEntity) (e : OutsideEntity),
      e.despawnOutside = false → e ∉ despawn_outside window es) ∧
    (∀ (window : WindowSize) (e : OutsideEntity),
      outside window e = true ↔
        (e.pos.x > outer_bound window.width e.width + 12 ∨
          e.pos.x < -(outer_bound window.width e.width + 12) ∨
          e.pos.y > outer_bound window.height e.height + 12 ∨
          e.pos.y < -(outer_bound window.height e.height + 12))) ∧
    outside ⟨800, 600⟩ ⟨0, true, 64, 64, ⟨444, 0⟩⟩ = false ∧
    outside ⟨800, 600⟩ ⟨0, true, 64, 64, ⟨4441/10, 0⟩⟩ = true ∧
    outside ⟨800, 600⟩ ⟨0, true, 64, 64, ⟨-4441/10, 0⟩⟩ = true ∧
    outside ⟨800, 600⟩ ⟨0, true, 64, 64, ⟨0, 344⟩⟩ = false ∧
    outside ⟨800, 600⟩ ⟨0, true, 64, 64, ⟨0, 3441/10⟩⟩ = true ∧
    outside ⟨800, 600⟩ ⟨0, true, 64, 64, ⟨0, -3441/10⟩⟩ = true := by
  refine ⟨?_, ?_, ?_, ?_, ?_, ?_, ?_, ?_, ?_⟩
  · intro window es e
    simp [despawn_outside, List.mem_filter, Bool.and_eq_true]
  · intro window es e h
    simp [despawn_outside, List.mem_filter, h]
  · intro window e
    unfold outside
    simp only [Bool.or_eq_true, decide_eq_true_eq]
    tauto
  · norm_num [outside, outer_bound]
  · norm_num [outside, outer_bound]
  · norm_num [outside, outer_bound]
  · norm_num [outside, outer_bound]
  · norm_num [outside, outer_bound]
  · norm_num [outside, outer_bound]

/-- Witness for C8 (amended): an entity without the marker is not reaped
even far off-screen. -/
theorem despawn_outside_margin_witness :
    (⟨0, false, 64, 64, ⟨1000, 0⟩⟩ : OutsideEntity).despawnOutside = false ∧
      (⟨0, false, 64, 64, ⟨1000, 0⟩⟩ : OutsideEntity) ∉
        despawn_outside ⟨800, 600⟩ [⟨0, false, 64, 64, ⟨1000, 0⟩⟩] :=
  ⟨rfl, despawn_outside_margin.2.1 ⟨800, 600⟩ [⟨0, false, 64, 64, ⟨1000, 0⟩⟩]
    ⟨0, false, 64, 64, ⟨1000, 0⟩⟩ rfl⟩

end Zenith
